import Mathlib

/-!
Verification development for the correlated telemetry emission core of the
gitlab-nextjs-demo repository.  The TypeScript sources under `src/lib`
(`logging.ts`, `tracing.ts`, `logger-tracing.ts`), `src/instrumentation.ts`
and the unnamed source parts are shallowly embedded below: JavaScript objects
become association lists of `JsVal` values, exceptions become `Except`, the
ambient OpenTelemetry active span becomes an explicit `Option Span` argument,
wall-clock timestamps and environment configuration become explicit
parameters, and the outcome of a network call becomes an explicit
`AxiosOutcome` argument.
-/

namespace Telemetry

/-- Model of a JavaScript value as stored in a loosely typed `Record<string, any>`
bag: a string, a nested object, or the `undefined` value.  These are the only
value shapes the telemetry core reads or writes. -/
inductive JsVal where
  | str (s : String)
  | obj (fields : List (String × JsVal))
  | undefV

/-- A JavaScript object: an ordered association list with unique keys
(JS objects preserve insertion order; updating an existing key keeps its
original position). -/
abbrev Obj := List (String × JsVal)

/-- JS property read `o[k]`: `none` models `undefined` for an absent key. -/
def objGet (o : Obj) (k : String) : Option JsVal :=
  (o.find? (fun kv => kv.1 == k)).map (fun kv => kv.2)

/-- JS property write `o[k] = v`: updates an existing key in place, otherwise
appends the key at the end, as JS objects do. -/
def objSet (o : Obj) (k : String) (v : JsVal) : Obj :=
  if (o.find? (fun kv => kv.1 == k)).isSome then
    o.map (fun kv => if kv.1 == k then (k, v) else kv)
  else
    o ++ [(k, v)]

/-- JS object spread `{ ...a, ...b }`: the keys of `b` override those of `a`. -/
def objMerge (a b : Obj) : Obj :=
  b.foldl (fun acc kv => objSet acc kv.1 kv.2) a

/-- JS truthiness of a value: the empty string and `undefined` are falsy,
every object is truthy. -/
def truthy : JsVal → Bool
  | .str s => s != ""
  | .obj _ => true
  | .undefV => false

/-- JS truthiness of a possibly-undefined value. -/
def truthyOpt : Option JsVal → Bool
  | some v => truthy v
  | none => false

/-- JS truthiness of a `string | undefined` value. -/
def truthyS : Option String → Bool
  | some s => s != ""
  | none => false

/-- The `typeof v === 'string'` test: yields the string when it is one. -/
def getStrOpt : Option JsVal → Option String
  | some (.str s) => some s
  | _ => none

/-- JS short-circuit `a || b` on possibly-undefined values: the first operand
when truthy, otherwise the second operand's value. -/
def jsOrV (a b : Option JsVal) : Option JsVal :=
  if truthyOpt a then a else b

/-- JS short-circuit `a || b` on `string | undefined` values. -/
def jsOrS (a b : Option String) : Option String :=
  if truthyS a then a else b

/-- Embeds a `string | undefined` into the value model. -/
def optVal : Option String → JsVal
  | some s => .str s
  | none => .undefV

/-- Whether a value is `undefined`. -/
def isUndefV : JsVal → Bool
  | .undefV => true
  | _ => false

/-- The keys of an object that survive `JSON.stringify` (keys whose value is
`undefined` are dropped by JSON serialization). -/
def definedKeys (o : Obj) : List String :=
  (o.filter (fun kv => !isUndefV kv.2)).map (fun kv => kv.1)

mutual

/-- `JSON.stringify` of a single value (telemetry values are strings or
nested plain objects; `undefined` never survives serialization inside an
object because its key is dropped beforehand). -/
def serializeVal : JsVal → String
  | .str s => "\"" ++ s ++ "\""
  | .undefV => "null"
  | .obj fs => "\x7b" ++ serializeEntries fs ++ "\x7d"

/-- Serializes the entries of an object, comma separated; keys holding
`undefined` are omitted, as `JSON.stringify` drops them. -/
def serializeEntries : List (String × JsVal) → String
  | [] => ""
  | (k, v) :: rest =>
    if isUndefV v then serializeEntries rest
    else
      let entry := "\"" ++ k ++ "\":" ++ serializeVal v
      let tail := serializeEntries rest
      if tail = "" then entry else entry ++ "," ++ tail

end

/-- `JSON.stringify` of a whole field object. -/
def serializeFields (o : Obj) : String :=
  "\x7b" ++ serializeEntries o ++ "\x7d"

/-- JS `String.prototype.split('-')` on the character list of a string:
every occurrence of `-` separates segments, adjacent separators produce
empty segments, and the empty string splits to `[""]`. -/
def splitDash : List Char → List String
  | [] => [""]
  | c :: rest =>
    let r := splitDash rest
    if c = '-' then "" :: r
    else
      match r with
      | [] => [String.mk [c]]
      | h :: t => String.mk (c :: h.data) :: t

/-- JS `s.split('-')`. -/
def jsSplitDash (s : String) : List String :=
  splitDash s.data

/-- ASCII lower-casing of one character, as `String.prototype.toLowerCase`
acts on the ASCII header keys used by the resolver. -/
def lcChar (c : Char) : Char :=
  if 'A' ≤ c && c ≤ 'Z' then Char.ofNat (c.toNat + 32) else c

/-- ASCII lower-casing of a string. -/
def lcStr (s : String) : String :=
  String.mk (s.data.map lcChar)

/-- One character of the case-insensitive hex class `[0-9a-f]`. -/
def hexCharCI (c : Char) : Bool :=
  c.isDigit || ('a' ≤ c && c ≤ 'f') || ('A' ≤ c && c ≤ 'F')

/-- The anchored regular expression `/^[0-9a-f]{16,32}$/i` used by
`getTraceIdForLogging` to validate traceparent and b3 segments. -/
def isHexSeg (s : String) : Bool :=
  decide (16 ≤ s.data.length) && decide (s.data.length ≤ 32)
    && s.data.all hexCharCI

/-- An OpenTelemetry span as the telemetry core observes it: only its span
context's trace id is read. -/
structure Span where
  traceId : String
deriving DecidableEq, Repr

/-- Embeds `getCurrentTraceId` of `src/lib/tracing.ts`: returns the active
span's `spanContext().traceId` when an active span exists, `undefined`
otherwise (the surrounding try/catch never fires in this pure model). -/
def getCurrentTraceId (activeSpan : Option Span) : Option String :=
  activeSpan.map (fun sp => sp.traceId)

/-- The `headers` object consulted by the resolver:
`extra.headers || extra.req?.headers` of `src/lib/logging.ts`. -/
def headersVal (e : Obj) : Option JsVal :=
  jsOrV (objGet e "headers")
    (match objGet e "req" with
      | some (.obj r) => objGet r "headers"
      | _ => none)

/-- JS optional-chained header read `headers?.[k]`. -/
def lookupH (h : Option JsVal) (k : String) : Option JsVal :=
  match h with
  | some (.obj fs) => objGet fs k
  | _ => none

/-- The local helper `fromHeaders` of `getTraceIdForLogging`:
`headers?.[k] || headers?.[k.toLowerCase()]`. -/
def fromHeaders (h : Option JsVal) (k : String) : Option JsVal :=
  jsOrV (lookupH h k) (lookupH h (lcStr k))

/-- Step 2 of `getTraceIdForLogging` (src/lib/logging.ts:194): the direct
field `extra.traceId`, accepted only when it is a truthy string. -/
def stageTraceId (e : Obj) : Option String :=
  match getStrOpt (objGet e "traceId") with
  | some s => if s = "" then none else some s
  | none => none

/-- Step 3 of `getTraceIdForLogging` (src/lib/logging.ts:195-196): the direct
fields `extra.traceID` then `extra.trace_id`, accepted whenever they are
strings — the source performs no truthiness check here, so an empty string is
returned as-is. -/
def stageAltFields (e : Obj) : Option String :=
  match getStrOpt (objGet e "traceID") with
  | some s => some s
  | none => getStrOpt (objGet e "trace_id")

/-- Step 4 of `getTraceIdForLogging` (src/lib/logging.ts:199-202): the
headers `traceid`, `x-trace-id`, `x-b3-traceid`, accepted when the chained
`||` yields a truthy string. -/
def stageHeaders (e : Obj) : Option String :=
  let h := headersVal e
  let hv := jsOrV (jsOrV (fromHeaders h "traceid") (fromHeaders h "x-trace-id"))
    (fromHeaders h "x-b3-traceid")
  match getStrOpt hv with
  | some s => if s = "" then none else some s
  | none => none

/-- Step 5 of `getTraceIdForLogging` (src/lib/logging.ts:205-209): the W3C
traceparent value `version-traceid-spanid-flags`, from the direct field or
the `traceparent` header; the second hyphen-delimited segment is returned
when it matches `[0-9a-f]{16,32}` case-insensitively. -/
def stageTraceparent (e : Obj) : Option String :=
  let tp := jsOrV (objGet e "traceparent") (fromHeaders (headersVal e) "traceparent")
  match getStrOpt tp with
  | some s =>
    let parts := jsSplitDash s
    if 2 ≤ parts.length && isHexSeg (parts.getD 1 "") then some (parts.getD 1 "")
    else none
  | none => none

/-- Step 6 of `getTraceIdForLogging` (src/lib/logging.ts:212-216): the B3
single header `traceid-spanid-sampled[-...]`, from the direct field or the
`b3` header; the first segment is returned when truthy and hex-valid. -/
def stageB3 (e : Obj) : Option String :=
  let bv := jsOrV (objGet e "b3") (fromHeaders (headersVal e) "b3")
  match getStrOpt bv with
  | some s =>
    let tid := (jsSplitDash s).getD 0 ""
    if tid != "" && isHexSeg tid then some tid
    else none
  | none => none

/-- The carrier part of the resolver: steps 2-6 of `getTraceIdForLogging`
tried in source order, each falling through to the next on no match. -/
def fromCarrier (e : Obj) : Option String :=
  (stageTraceId e) <|> (stageAltFields e) <|> (stageHeaders e)
    <|> (stageTraceparent e) <|> (stageB3 e)

/-- Embeds `getTraceIdForLogging` of `src/lib/logging.ts` (lines 183-219):
the ambient active span's trace id wins when truthy; otherwise the supplied
`extra` carrier is consulted field by field; `undefined` when nothing
matches or no carrier was passed. -/
def getTraceIdForLogging (activeSpan : Option Span) (extra? : Option Obj) :
    Option String :=
  match getCurrentTraceId activeSpan with
  | some t =>
    if t = "" then (extra?.bind fromCarrier) else some t
  | none => extra?.bind fromCarrier

/-- The externally configured Loki stream tags of `src/lib/logging.ts`
(`LOKI_JOB`, `LOKI_APP`, `LOKI_ENV`), made explicit parameters of the
embedding. -/
structure LokiCfg where
  job : String
  app : String
  env : String
deriving DecidableEq, Repr

/-- One Loki stream of a push payload: its label set and its
`[timestampNanos, lineText]` value pairs. -/
structure LokiStream where
  stream : List (String × String)
  values : List (String × String)
deriving DecidableEq, Repr

/-- A Loki push request body: `{ streams: [...] }`. -/
structure LokiBody where
  streams : List LokiStream
deriving DecidableEq, Repr

/-- A JavaScript `Error` as the logger decomposes it: name, message, stack. -/
structure JsError where
  name : String
  message : String
  stack : String
deriving DecidableEq, Repr

/-- The `{ name, message, stack }` object the logger builds from an error. -/
def errVal (e : JsError) : JsVal :=
  .obj [("name", .str e.name), ("message", .str e.message), ("stack", .str e.stack)]

/-- The four log levels of the emitter. -/
inductive Level where
  | debug
  | info
  | warn
  | error
deriving DecidableEq, Repr

/-- The level string passed to `pushToLoki` by each entry point. -/
def levelName : Level → String
  | .debug => "debug"
  | .info => "info"
  | .warn => "warn"
  | .error => "error"

/-- A record written to the local pino sink: level, message and the merged
field object. -/
structure LogEvent where
  level : Level
  message : String
  fields : Obj

/-- Whether a local record was written at the error level. -/
def isErrorEvent (ev : LogEvent) : Bool :=
  match ev.level with
  | .error => true
  | _ => false

/-- The fixed base labels `{ job, level, app, env }` every push starts from
(src/lib/logging.ts:54-59 and 225-230, src/lib/logger-tracing.ts:54). -/
def baseLabels (cfg : LokiCfg) (level : String) : List (String × String) :=
  [("job", cfg.job), ("level", level), ("app", cfg.app), ("env", cfg.env)]

/-- Embeds the payload construction of the first `pushToLoki` of
`src/lib/logging.ts` (lines 52-67) and, identically, of
`src/lib/logger-tracing.ts` (lines 52-58): fixed labels, a single stream
with a single `[nowInNano(), line]` pair, and a line that is the message
alone when the field object has no keys and otherwise the message followed
by a ` | `-separated `JSON.stringify` of the fields.  The nanosecond
timestamp is an explicit parameter. -/
def pushBody1 (cfg : LokiCfg) (ts : String) (level message : String)
    (fields? : Option Obj) : LokiBody :=
  let text := match fields? with
    | some fs => if fs.length ≠ 0 then " | " ++ serializeFields fs else ""
    | none => ""
  let line := message ++ text
  { streams := [{ stream := baseLabels cfg level, values := [(ts, line)] }] }

/-- Embeds the payload construction of the second `pushToLoki` of
`src/lib/logging.ts` (lines 221-261, matching `src/unnamed/part_001` lines
93-128): the trace id is re-resolved from the extra object, added as an
additional `trace_id` stream label when truthy, and mirrored into the
line fields under `traceId` when those do not already carry a truthy one. -/
def pushToLokiBody2 (cfg : LokiCfg) (ts : String) (activeSpan : Option Span)
    (level message : String) (extra? : Option Obj) : LokiBody :=
  let traceId := getTraceIdForLogging activeSpan extra?
  let labels := baseLabels cfg level
  let labels := if truthyS traceId then labels ++ [("trace_id", traceId.getD "")]
    else labels
  let fields := objMerge [] (extra?.getD [])
  let fields := if truthyS traceId && !truthyOpt (objGet fields "traceId") then
      objSet fields "traceId" (.str (traceId.getD ""))
    else fields
  let fieldsText := if fields.length ≠ 0 then " | " ++ serializeFields fields else ""
  let line := message ++ fieldsText
  { streams := [{ stream := labels, values := [(ts, line)] }] }

/-- The field object built by the first `log` object of `src/lib/logging.ts`
(lines 70-96): a copy of `extra`, then `trace_id` when the explicit trace id
parameter is truthy, then the decomposed `error` for the error entry point. -/
def logFields1 (extra? : Option Obj) (tid? : Option String)
    (err? : Option JsError) : Obj :=
  let fields := objMerge [] (extra?.getD [])
  let fields := match tid? with
    | some t => if t = "" then fields else objSet fields "trace_id" (.str t)
    | none => fields
  match err? with
  | some e => objSet fields "error" (errVal e)
  | none => fields

/-- Embeds one call to the first `log` object of `src/lib/logging.ts`
(lines 70-96): the local pino write and the single fire-and-forget
`pushToLoki` submission that every entry point performs unconditionally.
The error parameter only reaches the fields at the error entry point. -/
def logRun1 (cfg : LokiCfg) (ts : String) (lvl : Level) (message : String)
    (extra? : Option Obj) (tid? : Option String) (err? : Option JsError) :
    LogEvent × List LokiBody :=
  let fields := logFields1 extra? tid? (match lvl with | .error => err? | _ => none)
  (⟨lvl, message, fields⟩, [pushBody1 cfg ts (levelName lvl) message (some fields)])

/-- The possible outcomes of the `axios.post` call to the Loki endpoint:
success, a non-success HTTP status (axios rejects those), a network error,
or hitting the 5000 ms timeout. -/
inductive AxiosOutcome where
  | success
  | httpFail (status : Nat)
  | netFail
  | timedOut
deriving DecidableEq, Repr

/-- The failure an `axios.post` rejection carries. -/
inductive RemoteError where
  | status (code : Nat)
  | network
  | timedOut
deriving DecidableEq, Repr

/-- `await axios.post(...)` as the try block of `pushToLoki` observes it:
an exception for every non-success outcome. -/
def axiosPost : AxiosOutcome → Except RemoteError Unit
  | .success => .ok ()
  | .httpFail s => .error (.status s)
  | .netFail => .error .network
  | .timedOut => .error .timedOut

/-- Embeds the first `pushToLoki` of `src/lib/logging.ts` (lines 52-67) with
its exception flow: the whole body sits in `try { ... } catch (_) {}`, so
every remote outcome — thrown rejection, non-success status, network error
or timeout — is absorbed and the function returns normally.  The attempted
payload is returned as evidence of what was sent. -/
def pushToLoki1Run (cfg : LokiCfg) (ts : String) (level message : String)
    (fields? : Option Obj) (o : AxiosOutcome) : Except JsError LokiBody :=
  let payload := pushBody1 cfg ts level message fields?
  match axiosPost o with
  | .ok _ => .ok payload
  | .error _ => .ok payload

/-- Embeds one call to the first `log` object of `src/lib/logging.ts` with
the exception flow made explicit: the local pino write happens first, then
the un-awaited `void pushToLoki(...)` whose failures are absorbed inside
`pushToLoki` itself, so the call returns the local record and the attempted
push for every remote outcome. -/
def logRun1E (cfg : LokiCfg) (ts : String) (lvl : Level) (message : String)
    (extra? : Option Obj) (tid? : Option String) (err? : Option JsError)
    (o : AxiosOutcome) : Except JsError (LogEvent × LokiBody) := do
  let fields := logFields1 extra? tid? (match lvl with | .error => err? | _ => none)
  let ev : LogEvent := ⟨lvl, message, fields⟩
  let push ← pushToLoki1Run cfg ts (levelName lvl) message (some fields) o
  return (ev, push)

/-- The local record fields built by the second `log` object of
`src/lib/logging.ts` (lines 263-291): `{ traceId, ...extra }` for
debug/info/warn and `{ traceId, error: errObj, ...extra }` for error, with
the spread of `extra` overriding the leading keys. -/
def localFields2 (tid : Option String) (err? : Option JsError) (lvl : Level)
    (extra? : Option Obj) : Obj :=
  let base : Obj := match lvl with
    | .error =>
      [("traceId", optVal tid),
       ("error", match err? with | some e => errVal e | none => .undefV)]
    | _ => [("traceId", optVal tid)]
  objMerge base (extra?.getD [])

/-- The extra object the second `log` object hands to `pushToLoki`:
`{ ...extra, traceId }` for debug/info/warn and
`{ error: errObj, ...extra, traceId }` for error — the re-resolved trace id
written last, overriding anything spread in before it. -/
def pushExtra2 (tid : Option String) (err? : Option JsError) (lvl : Level)
    (extra? : Option Obj) : Obj :=
  let base : Obj := match lvl with
    | .error =>
      objMerge [("error", match err? with | some e => errVal e | none => .undefV)]
        (extra?.getD [])
    | _ => objMerge [] (extra?.getD [])
  objSet base "traceId" (optVal tid)

/-- Embeds one call to the second `log` object of `src/lib/logging.ts`
(lines 263-291): the trace id is resolved once via `getTraceIdForLogging`,
the local pino record is written, and a single unconditional `pushToLoki`
submission is dispatched — no sampling decision is ever consulted on this
path. -/
def logRun2 (cfg : LokiCfg) (ts : String) (activeSpan : Option Span)
    (lvl : Level) (message : String) (err? : Option JsError)
    (extra? : Option Obj) : LogEvent × List LokiBody :=
  let tid := getTraceIdForLogging activeSpan extra?
  let err := match lvl with | .error => err? | _ => none
  (⟨lvl, message, localFields2 tid err lvl extra?⟩,
   [pushToLokiBody2 cfg ts activeSpan (levelName lvl) message
      (some (pushExtra2 tid err lvl extra?))])

/-- The extra object `createRequestLogger` of `src/lib/logging.ts`
(lines 293-303) injects into every call:
`{ requestId, userId, traceId: actualTraceId }` (with no caller extras). -/
def reqExtra (requestId : String) (userId : Option String)
    (tid : Option String) : Obj :=
  [("requestId", .str requestId), ("userId", optVal userId),
   ("traceId", optVal tid)]

/-- Embeds `withLogging` of `src/lib/logging.ts` (lines 305-322); the first
variant (lines 109-126) has the identical control skeleton with
`createManualLogger` in place of `createRequestLogger`.  The body is
represented by its outcome; the wrapper's own lifecycle events and push
submissions are collected in order.  The generated request id is an explicit
parameter.  On a normal return the body's value is returned unchanged after
the `Starting`/`Completed` info events; on a thrown error, one `Failed`
error event is logged and the same error is rethrown. -/
def withLoggingRun {α : Type} (cfg : LokiCfg) (ts : String)
    (activeSpan : Option Span) (requestId op : String)
    (outcome : Except JsError α) :
    (List LogEvent × List LokiBody) × Except JsError α :=
  let tid := getCurrentTraceId activeSpan
  let actualTid := jsOrS tid (getCurrentTraceId activeSpan)
  let ex := reqExtra requestId none actualTid
  match outcome with
  | .ok v =>
    let e1 := logRun2 cfg ts activeSpan .info ("Starting " ++ op) none (some ex)
    let e2 := logRun2 cfg ts activeSpan .info ("Completed " ++ op) none (some ex)
    (([e1.1, e2.1], e1.2 ++ e2.2), .ok v)
  | .error e =>
    let e1 := logRun2 cfg ts activeSpan .info ("Starting " ++ op) none (some ex)
    let e3 := logRun2 cfg ts activeSpan .error ("Failed " ++ op) (some e) (some ex)
    (([e1.1, e3.1], e1.2 ++ e3.2), .error e)

/-- An operation the tracing wrappers perform on a span. -/
inductive SpanOp where
  | startSpan (name : String)
  | setStatus (code : Nat) (message : Option String)
  | endSpan
deriving DecidableEq, Repr

/-- Whether a span operation is `span.end()`. -/
def isEnd : SpanOp → Bool
  | .endSpan => true
  | _ => false

/-- How many times a span-operation trace executes `span.end()`. -/
def countEnd (ops : List SpanOp) : Nat :=
  (ops.filter isEnd).length

/-- Embeds `createSpan` of `src/lib/tracing.ts` (lines 25-42): the body runs
inside `startActiveSpan` under `try`/`catch`/`finally`; the success path
sets status code 1, the failure path sets status code 2 with the error's
message and rethrows, and the `finally` block executes `span.end()` on both
exit routes.  The body is represented by its outcome; the returned list is
the wrapper's operation trace on the span it opened. -/
def createSpanRun {α : Type} (name : String) (outcome : Except JsError α) :
    List SpanOp × Except JsError α :=
  ([SpanOp.startSpan name] ++
    (match outcome with
      | .ok _ => [SpanOp.setStatus 1 none]
      | .error e => [SpanOp.setStatus 2 (some e.message)]) ++
    [SpanOp.endSpan], outcome)

/-- Embeds `createSpan` of `src/lib/logger-tracing.ts` (lines 10-27): when
an ambient active span exists the body runs on it directly and the wrapper
performs no span operation at all (in particular it never ends the span it
does not own); otherwise it behaves as the tracing.ts wrapper. -/
def createSpanLTRun {α : Type} (ambient : Option Span) (name : String)
    (outcome : Except JsError α) : List SpanOp × Except JsError α :=
  match ambient with
  | some _ => ([], outcome)
  | none => createSpanRun name outcome

/-- Embeds the custom sampler of `src/unnamed/part_000` (lines 25-31):
`shouldSample: () => Math.random() < 0.1`.  The `Math.random()` draw is an
explicit argument, scaled to an integer below 10^9; the trace id the sampler
interface supplies is ignored by this implementation. -/
def customShouldSample (traceId : String) (draw : Nat) : Bool :=
  let _ := traceId
  draw < 100000000

/-- Modelled from the spec: the Sampling Decision component (§4.2) —
`decide(traceId, ratio) -> bool` drawn once per new trace and cached keyed
by trace id, `lookup(traceId)` returning the cached value thereafter.  This
component is realized by the `TraceIdRatioBasedSampler` library sampler
configured at `src/instrumentation.ts:40`, whose implementation is not part
of this repository's sources; the Bernoulli draw is abstracted as consuming
the head of a supplied stream of boolean draws. -/
structure SamplerCache where
  cache : List (String × Bool)
  draws : List Bool
deriving DecidableEq, Repr

/-- The cached decision for a trace id, when one exists. -/
def cacheGet (s : SamplerCache) (t : String) : Option Bool :=
  (s.cache.find? (fun kv => kv.1 == t)).map (fun kv => kv.2)

/-- Modelled from the spec: one sampling evaluation for a trace id — the
cached decision when present, otherwise a fresh draw that is recorded for
the trace's lifetime. -/
def lookupOrDecide (s : SamplerCache) (t : String) : Bool × SamplerCache :=
  match s.cache.find? (fun kv => kv.1 == t) with
  | some kv => (kv.2, s)
  | none =>
    let b := s.draws.headD false
    (b, { cache := s.cache ++ [(t, b)], draws := s.draws.tail })

/-- Runs a sequence of sampling evaluations, returning each queried trace id
with the decision it received. -/
def runLookups (s : SamplerCache) (ts : List String) : List (String × Bool) :=
  match ts with
  | [] => []
  | t :: rest =>
    let r := lookupOrDecide s t
    (t, r.1) :: runLookups r.2 rest

/-- Whether a value is the empty string. -/
def isEmptyStrVal : JsVal → Bool
  | .str s => s == ""
  | _ => false

lemma lookupOrDecide_cached {s : SamplerCache} {t : String} {b : Bool}
    (h : cacheGet s t = some b) : lookupOrDecide s t = (b, s) := by
  unfold cacheGet at h
  unfold lookupOrDecide
  cases hf : s.cache.find? (fun kv => kv.1 == t) with
  | none => rw [hf] at h; simp at h
  | some kv => rw [hf] at h; simp at h; simp [h]

lemma cacheGet_lookupOrDecide_self (s : SamplerCache) (t : String) :
    cacheGet (lookupOrDecide s t).2 t = some (lookupOrDecide s t).1 := by
  unfold lookupOrDecide cacheGet
  cases hf : s.cache.find? (fun kv => kv.1 == t) with
  | some kv => simp [hf]
  | none => simp [hf, List.find?_append]

lemma cacheGet_preserved {s : SamplerCache} {t : String} {b : Bool}
    (t' : String) (h : cacheGet s t = some b) :
    cacheGet (lookupOrDecide s t').2 t = some b := by
  unfold lookupOrDecide
  cases hf : s.cache.find? (fun kv => kv.1 == t') with
  | some kv => simpa using h
  | none =>
    unfold cacheGet at h ⊢
    simp only [List.find?_append]
    cases hg : s.cache.find? (fun kv => kv.1 == t) with
    | none => rw [hg] at h; simp at h
    | some kv => rw [hg] at h; simpa [Option.or] using h

lemma runLookups_cached {b : Bool} (ts : List String) :
    ∀ (s : SamplerCache) (t : String), cacheGet s t = some b →
      ∀ p ∈ runLookups s ts, p.1 = t → p.2 = b := by
  induction ts with
  | nil => intro s t _ p hp; simp [runLookups] at hp
  | cons t' rest ih =>
    intro s t hc p hp hpt
    rw [runLookups] at hp
    rcases List.mem_cons.mp hp with h1 | h2
    · subst h1
      simp only at hpt
      subst hpt
      rw [lookupOrDecide_cached hc]
    · exact ih (lookupOrDecide s t').2 t (cacheGet_preserved t' hc) p h2 hpt

/-- C6: for every span-wrapped operation and every exit path of its body —
normal return or thrown exception — the span opened by the wrapper is closed
exactly once: `span.end()` runs in the `finally` block on every exit route
of `createSpan` (src/lib/tracing.ts:25-42), and never twice; the
logger-tracing variant (src/lib/logger-tracing.ts:10-27) additionally reuses
an ambient span without ever closing a span it did not open. -/
theorem span_closed_exactly_once {α : Type} (name : String)
    (outcome : Except JsError α) (ambient : Option Span) :
    countEnd (createSpanRun name outcome).1 = 1 ∧
    countEnd (createSpanLTRun ambient name outcome).1 =
      (if ambient.isSome then 0 else 1) := by
  cases outcome <;> cases ambient <;>
    simp [createSpanRun, createSpanLTRun, countEnd, isEnd]

/-- C7 is refuted on the custom sampler of `src/unnamed/part_000`: its
`shouldSample` draws `Math.random()` afresh on every call and ignores the
trace id, so two evaluations for the very same trace id can disagree — here
draw 0.05 samples the trace while draw 0.9 does not. -/
theorem custom_sampler_not_deterministic :
    customShouldSample "4bf92f3577b34da6a3ce929d0e0e4736" 50000000 = true ∧
    customShouldSample "4bf92f3577b34da6a3ce929d0e0e4736" 900000000 = false := by
  constructor <;> decide

/-- C7 (amended): for the sticky per-trace decision cache that the spec
prescribes and that the `TraceIdRatioBasedSampler` configured in
`src/instrumentation.ts` realizes, once a trace id has been evaluated, every
later evaluation of the same trace id — across any interleaved sequence of
lookups for other traces — returns the same boolean, so a single trace is
never partially sampled by that sampler. -/
theorem sampling_decision_sticky (s : SamplerCache) (t : String)
    (ts : List String) (p : String × Bool)
    (hmem : p ∈ runLookups (lookupOrDecide s t).2 ts) (hp : p.1 = t) :
    p.2 = (lookupOrDecide s t).1 :=
  runLookups_cached ts (lookupOrDecide s t).2 t
    (cacheGet_lookupOrDecide_self s t) p hmem hp

/-- Witness for the amended C7 at a concrete cache and query sequence: the
trace `t1` is decided `true` by its first draw, and a later lookup after an
interleaved query for `t2` still returns `true`. -/
theorem sampling_decision_sticky_witness :
    ("t1", true) ∈
        runLookups ((lookupOrDecide (⟨[], [true]⟩ : SamplerCache) "t1").2)
          ["t2", "t1"] ∧
      ("t1", true).2 = (lookupOrDecide (⟨[], [true]⟩ : SamplerCache) "t1").1 :=
  ⟨by decide, sampling_decision_sticky ⟨[], [true]⟩ "t1" ["t2", "t1"]
    ("t1", true) (by decide) rfl⟩

/-- C8 is refuted: a record owned by a trace whose sampling decision is
`false` is still shipped remotely — the trace id `1234567890abcdef` resolves
for the record, its cached decision is `false`, and the log call still
submits exactly one remote push, because no log entry point ever consults
the sampling decision. -/
theorem unsampled_record_shipped :
    (lookupOrDecide (⟨[("1234567890abcdef", false)], []⟩ : SamplerCache)
        "1234567890abcdef").1 = false ∧
    getTraceIdForLogging none (some [("trace_id", JsVal.str "1234567890abcdef")])
      = some "1234567890abcdef" ∧
    ((logRun2 ⟨"gitlab-nextjs-demo", "gitlab-nextjs-demo", "development"⟩ "1"
        none Level.info "posts.list" none
        (some [("trace_id", JsVal.str "1234567890abcdef")])).2).length = 1 := by
  refine ⟨by decide, by decide, rfl⟩

/-- C8 (amended): every record emitted through the four entry points of
either `log` object is submitted to the remote export channel
unconditionally — exactly one push per call regardless of any sampling
decision and regardless of whether the record is associated with a trace;
sampling gates only the span export configured in the tracer provider. -/
theorem log_ships_unconditionally :
    (∀ (cfg : LokiCfg) (ts : String) (sp : Option Span) (lvl : Level)
        (msg : String) (err? : Option JsError) (extra? : Option Obj),
      ((logRun2 cfg ts sp lvl msg err? extra?).2).length = 1) ∧
    (∀ (cfg : LokiCfg) (ts : String) (lvl : Level) (msg : String)
        (extra? : Option Obj) (tid? : Option String) (err? : Option JsError),
      ((logRun1 cfg ts lvl msg extra? tid? err?).2).length = 1) := by
  exact ⟨fun _ _ _ _ _ _ _ => rfl, fun _ _ _ _ _ _ _ => rfl⟩

/-- C9 is refuted: the second `pushToLoki` of `src/lib/logging.ts`
(lines 221-261; likewise `src/unnamed/part_001`) adds the resolved trace id
as an additional `trace_id` stream label, so the stream-label set of this
push is not the fixed set job/app/env/level. -/
theorem trace_id_label_added :
    "trace_id" ∈
      ((pushToLokiBody2 ⟨"gitlab-nextjs-demo", "gitlab-nextjs-demo",
          "development"⟩ "1" none "info" "m"
          (some [("trace_id", JsVal.str "1234567890abcdef")])).streams.map
        (fun st => st.stream.map Prod.fst)).flatten := by
  decide

/-- C9 (amended): for every remote push built by the second `pushToLoki` the
stream-label keys are exactly the fixed list job, level, app, env, extended
by a fifth `trace_id` label exactly when a truthy trace id resolves for the
record; caller-supplied fields appear only serialized into the line. -/
theorem loki_label_keys (cfg : LokiCfg) (ts : String) (sp : Option Span)
    (level msg : String) (extra? : Option Obj) :
    (pushToLokiBody2 cfg ts sp level msg extra?).streams.map
        (fun st => st.stream.map Prod.fst) =
      [["job", "level", "app", "env"] ++
        (if truthyS (getTraceIdForLogging sp extra?) then ["trace_id"] else [])] := by
  unfold pushToLokiBody2 baseLabels
  cases h : truthyS (getTraceIdForLogging sp extra?) <;> simp [h]

/-- C10: every single log call of the first `log` object produces exactly
one remote push, and every payload built by `pushToLoki` holds exactly one
stream with exactly one `[timestampNanos, line]` value pair, whose line is
the message alone for an empty field object and otherwise the message
followed by ` | ` and the JSON-serialized fields. -/
theorem single_record_singleton_push (cfg : LokiCfg) (ts : String)
    (lvl : Level) (msg : String) (extra? : Option Obj) (tid? : Option String)
    (err? : Option JsError) :
    (logRun1 cfg ts lvl msg extra? tid? err?).2 =
      [pushBody1 cfg ts (levelName lvl) msg
        (some (logFields1 extra? tid?
          (match lvl with | .error => err? | _ => none)))] ∧
    (∀ (level : String) (fs : Obj),
      (pushBody1 cfg ts level msg (some fs)).streams.map (fun st => st.values) =
        [[(ts, if fs.length = 0 then msg
               else msg ++ " | " ++ serializeFields fs)]]) := by
  constructor
  · rfl
  · intro level fs
    unfold pushBody1
    by_cases h : fs.length = 0 <;> simp [h, String.append_assoc]

/-- C2: for every log level, message, fields and explicit trace id, and for
every outcome of the remote send — network error, thrown rejection,
non-success HTTP status, or timeout — the call completes normally with a
result that does not depend on the remote outcome: the local-sink record is
always written and no exception reaches the caller, because the whole body
of `pushToLoki` sits inside `try { ... } catch (_) {}`. -/
theorem log_error_absorbs_remote_failure (cfg : LokiCfg) (ts : String)
    (lvl : Level) (msg : String) (extra? : Option Obj) (tid? : Option String)
    (err? : Option JsError) (o : AxiosOutcome) :
    logRun1E cfg ts lvl msg extra? tid? err? o =
      Except.ok
        (⟨lvl, msg, logFields1 extra? tid?
            (match lvl with | .error => err? | _ => none)⟩,
         pushBody1 cfg ts (levelName lvl) msg
           (some (logFields1 extra? tid?
             (match lvl with | .error => err? | _ => none)))) := by
  cases o <;> rfl

/-- C3: whenever an ambient active span exists (with the nonempty trace id
every OpenTelemetry span context carries), the resolver returns the ambient
span's trace id for every supplied carrier, even one holding conflicting
trace ids in any of its fields or headers — the ambient check at the top of
`getTraceIdForLogging` returns before the carrier is ever consulted. -/
theorem ambient_span_wins (sp : Span) (extra? : Option Obj)
    (h : sp.traceId ≠ "") :
    getTraceIdForLogging (some sp) extra? = some sp.traceId := by
  simp [getTraceIdForLogging, getCurrentTraceId, h]

/-- Witness for C3: an ambient span with trace id `aaaabbbbccccdddd` beats a
carrier whose direct field, header, traceparent and b3 all carry the
conflicting trace id `ffffffffffffffff`. -/
theorem ambient_span_wins_witness :
    (Span.mk "aaaabbbbccccdddd").traceId ≠ "" ∧
      getTraceIdForLogging (some (Span.mk "aaaabbbbccccdddd"))
        (some [("trace_id", JsVal.str "ffffffffffffffff"),
         ("headers", JsVal.obj [("traceid", JsVal.str "ffffffffffffffff")]),
         ("traceparent",
          JsVal.str "00-ffffffffffffffff-bbbbbbbbbbbbbbbb-01"),
         ("b3", JsVal.str "ffffffffffffffff-bbbbbbbbbbbbbbbb-1")]) =
        some (Span.mk "aaaabbbbccccdddd").traceId :=
  ⟨by decide, ambient_span_wins (Span.mk "aaaabbbbccccdddd") _ (by decide)⟩

/-- C4: with no ambient span and no higher-priority field or header present,
for every traceparent-style string with at least two hyphen-delimited
segments the resolver returns the second segment exactly when it matches
`[0-9a-f]{16,32}` case-insensitively, and falls through (to nothing, the
carrier holding no b3 value) otherwise. -/
theorem traceparent_second_segment (tp : String)
    (h : 2 ≤ (jsSplitDash tp).length) :
    getTraceIdForLogging none (some [("traceparent", JsVal.str tp)]) =
      (if isHexSeg ((jsSplitDash tp).getD 1 "") then
        some ((jsSplitDash tp).getD 1 "") else none) := by
  have htp : tp ≠ "" := by
    intro he
    rw [he] at h
    exact absurd h (by decide)
  have htp' : (tp != "") = true := by simpa using htp
  have h2 : decide (2 ≤ (jsSplitDash tp).length) = true := decide_eq_true h
  simp only [getTraceIdForLogging, getCurrentTraceId, Option.map_none,
    Option.bind_some, fromCarrier, stageTraceId, stageAltFields, stageHeaders,
    stageTraceparent, stageB3, objGet, headersVal, lookupH, fromHeaders,
    jsOrV, truthyOpt, truthy, getStrOpt]
  simp [htp', h2]
  by_cases hc : isHexSeg ((jsSplitDash tp).getD 1 "") <;> simp [h, hc]

/-- Witness for C4 at the spec's concrete example: the header
`00-1234567890abcdef1234567890abcdef-bbbbbbbbbbbbbbbb-01` resolves to its
second hyphen-delimited segment. -/
theorem traceparent_second_segment_witness :
    2 ≤ (jsSplitDash
        "00-1234567890abcdef1234567890abcdef-bbbbbbbbbbbbbbbb-01").length ∧
      getTraceIdForLogging none
        (some [("traceparent",
          JsVal.str "00-1234567890abcdef1234567890abcdef-bbbbbbbbbbbbbbbb-01")])
        = some "1234567890abcdef1234567890abcdef" := by
  refine ⟨by decide, ?_⟩
  have h := traceparent_second_segment
    "00-1234567890abcdef1234567890abcdef-bbbbbbbbbbbbbbbb-01" (by decide)
  rw [h]
  decide

lemma objGet_of_all_empty {hs : List (String × JsVal)}
    (hemp : hs.all (fun kv => isEmptyStrVal kv.2) = true) (k : String) :
    objGet hs k = none ∨ objGet hs k = some (JsVal.str "") := by
  unfold objGet
  cases hf : hs.find? (fun kv => kv.1 == k) with
  | none => left; rfl
  | some kv =>
    right
    have hmem : kv ∈ hs := List.mem_of_find?_eq_some hf
    have he : isEmptyStrVal kv.2 = true := by
      have := List.all_eq_true.mp hemp kv hmem
      simpa using this
    cases hv : kv.2 with
    | str s =>
      rw [hv] at he
      unfold isEmptyStrVal at he
      have hse : s = "" := by simpa using he
      simp [hv, hse]
    | obj fs => rw [hv] at he; simp [isEmptyStrVal] at he
    | undefV => rw [hv] at he; simp [isEmptyStrVal] at he

lemma fromHeaders_of_all_empty {hs : List (String × JsVal)}
    (hemp : hs.all (fun kv => isEmptyStrVal kv.2) = true) (k : String) :
    fromHeaders (some (JsVal.obj hs)) k = none ∨
      fromHeaders (some (JsVal.obj hs)) k = some (JsVal.str "") := by
  unfold fromHeaders lookupH jsOrV
  rcases objGet_of_all_empty hemp k with h1 | h1 <;>
    rcases objGet_of_all_empty hemp (lcStr k) with h2 | h2 <;>
      simp [h1, h2, truthyOpt, truthy]

lemma headersVal_single (hs : List (String × JsVal)) :
    headersVal [("headers", JsVal.obj hs)] = some (JsVal.obj hs) := by
  simp [headersVal, objGet, jsOrV, truthyOpt, truthy]

lemma stageHeaders_of_all_empty {hs : List (String × JsVal)}
    (hemp : hs.all (fun kv => isEmptyStrVal kv.2) = true) :
    stageHeaders [("headers", JsVal.obj hs)] = none := by
  unfold stageHeaders
  rw [headersVal_single]
  rcases fromHeaders_of_all_empty hemp "traceid" with hA | hA <;>
    rcases fromHeaders_of_all_empty hemp "x-trace-id" with hB | hB <;>
      rcases fromHeaders_of_all_empty hemp "x-b3-traceid" with hC | hC <;>
        simp [hA, hB, hC, jsOrV, truthyOpt, truthy, getStrOpt]

lemma stageTraceparent_of_all_empty {hs : List (String × JsVal)}
    (hemp : hs.all (fun kv => isEmptyStrVal kv.2) = true) :
    stageTraceparent [("headers", JsVal.obj hs)] = none := by
  unfold stageTraceparent
  rw [headersVal_single]
  rcases fromHeaders_of_all_empty hemp "traceparent" with hD | hD <;>
    simp [hD, objGet, jsOrV, truthyOpt, truthy, getStrOpt, jsSplitDash,
      splitDash, isHexSeg]

lemma stageB3_of_all_empty {hs : List (String × JsVal)}
    (hemp : hs.all (fun kv => isEmptyStrVal kv.2) = true) :
    stageB3 [("headers", JsVal.obj hs)] = none := by
  unfold stageB3
  rw [headersVal_single]
  rcases fromHeaders_of_all_empty hemp "b3" with hE | hE <;>
    simp [hE, objGet, jsOrV, truthyOpt, truthy, getStrOpt, jsSplitDash,
      splitDash]

/-- C5 is refuted: the `traceID` direct field is only type-checked, never
truthiness-checked, so a carrier with an empty-string `traceID` makes the
resolver return the empty string rather than absent; a whitespace-only
`traceId` field is JS-truthy and returned verbatim; and the record built
for the empty-`traceID` carrier carries a defined (empty-string) `traceId`
field rather than none. -/
theorem empty_trace_field_counterexample :
    getTraceIdForLogging none (some [("traceID", JsVal.str "")]) = some "" ∧
    getTraceIdForLogging none (some [("traceId", JsVal.str " ")]) = some " " ∧
    "traceId" ∈ definedKeys
      ((logRun2 ⟨"gitlab-nextjs-demo", "gitlab-nextjs-demo", "development"⟩
        "1" none Level.debug "m" none
        (some [("traceID", JsVal.str "")])).1.fields) := by
  refine ⟨by decide, by decide, by decide⟩

/-- C5 (amended): with no ambient span, a carrier whose headers object holds
only empty-string values (the truthiness-checked positions) resolves to
absent, and the resulting log record then carries no defined trace id
field; however an empty-string `traceID` or `trace_id` direct field is
returned as an empty-string trace id, and whitespace-only values are truthy
and returned verbatim. -/
theorem empty_values_absent (hs : List (String × JsVal))
    (hemp : hs.all (fun kv => isEmptyStrVal kv.2) = true) :
    getTraceIdForLogging none (some [("headers", JsVal.obj hs)]) = none ∧
    (∀ (cfg : LokiCfg) (ts msg : String) (lvl : Level),
      "traceId" ∉ definedKeys
        ((logRun2 cfg ts none lvl msg none
          (some [("headers", JsVal.obj hs)])).1.fields)) := by
  have hres : getTraceIdForLogging none (some [("headers", JsVal.obj hs)])
      = none := by
    simp [getTraceIdForLogging, getCurrentTraceId, fromCarrier,
      stageTraceId, stageAltFields, objGet, getStrOpt,
      stageHeaders_of_all_empty hemp, stageTraceparent_of_all_empty hemp,
      stageB3_of_all_empty hemp]
  refine ⟨hres, ?_⟩
  intro cfg ts msg lvl
  cases lvl <;>
    simp [logRun2, localFields2, hres, objMerge, objSet, objGet, definedKeys,
      isUndefV, optVal]

/-- Witness for the amended C5: a headers object carrying empty strings
under all four recognized keys resolves to absent. -/
theorem empty_values_absent_witness :
    ([("traceid", JsVal.str ""), ("x-trace-id", JsVal.str ""),
        ("traceparent", JsVal.str ""), ("b3", JsVal.str "")].all
      (fun kv => isEmptyStrVal kv.2)) = true ∧
    getTraceIdForLogging none
      (some [("headers", JsVal.obj [("traceid", JsVal.str ""),
        ("x-trace-id", JsVal.str ""), ("traceparent", JsVal.str ""),
        ("b3", JsVal.str "")])]) = none :=
  ⟨by decide, (empty_values_absent _ (by decide)).1⟩

/-- C1: for every operation name and every body outcome, `withLogging`
rethrows a thrown error unchanged after logging exactly one error-level
event whose message is `Failed <operation>` and whose fields carry the
error's decomposed name/message/stack, and on a normal return it returns
the body's value unchanged after logging exactly the two info-level
lifecycle events `Starting <operation>` then `Completed <operation>`. -/
theorem withLogging_contract {α : Type} (cfg : LokiCfg) (ts : String)
    (sp : Option Span) (requestId op : String) (outcome : Except JsError α) :
    (withLoggingRun cfg ts sp requestId op outcome).2 = outcome ∧
    (∀ e : JsError, outcome = Except.error e →
      (((withLoggingRun cfg ts sp requestId op outcome).1.1.filter
          isErrorEvent).map
        (fun ev => (ev.message, objGet ev.fields "error")))
        = [("Failed " ++ op, some (errVal e))]) ∧
    (∀ v : α, outcome = Except.ok v →
      ((withLoggingRun cfg ts sp requestId op outcome).1.1.map
        (fun ev => (ev.level, ev.message)))
        = [(Level.info, "Starting " ++ op), (Level.info, "Completed " ++ op)]) := by
  refine ⟨?_, ?_, ?_⟩
  · cases outcome <;> rfl
  · intro e he
    subst he
    simp [withLoggingRun, logRun2, localFields2, reqExtra, objMerge, objSet,
      objGet, isErrorEvent, errVal, optVal]
  · intro v hv
    subst hv
    simp [withLoggingRun, logRun2, localFields2, reqExtra]

/-- Witness for C1 at a concrete failing body: a body throwing
`Error("boom")` makes the wrapper log exactly one error-level `Failed op`
event carrying the error's name, message and stack. -/
theorem withLogging_contract_witness :
    (((withLoggingRun (α := Unit)
          ⟨"gitlab-nextjs-demo", "gitlab-nextjs-demo", "development"⟩ "1"
          none "req1" "op"
          (Except.error ⟨"Error", "boom", "stacktrace"⟩)).1.1.filter
        isErrorEvent).map (fun ev => (ev.message, objGet ev.fields "error")))
      = [("Failed " ++ "op", some (errVal ⟨"Error", "boom", "stacktrace"⟩))] :=
  (withLogging_contract ⟨"gitlab-nextjs-demo", "gitlab-nextjs-demo",
      "development"⟩ "1" none "req1" "op"
    (Except.error ⟨"Error", "boom", "stacktrace"⟩)).2.1
    ⟨"Error", "boom", "stacktrace"⟩ rfl

end Telemetry
